import Mathlib
set_option maxRecDepth 16000

/-!
A shallow embedding of the `intel8080` emulator (src/intel8080.cpp) and proofs
about it.  Machine bytes are `Nat` values kept below 256, register pairs are
`Nat` values kept below 65536; every store that the C++ code performs into a
`byte` or `bytePair` is modelled with an explicit `% 256` or `% 65536`.
Memory is a function `Nat → Nat`; the host-supplied port callbacks are a pure
input function plus an output log.
-/

namespace Intel8080

/-- Modelled from the spec: flag bit positions (the `flagPos` enumeration of the
header, which is not part of the sources): bit 0 = Carry, bit 2 = Parity,
bit 4 = Auxiliary Carry, bit 6 = Zero, bit 7 = Sign. -/
def carry : Nat := 0

/-- Parity flag bit position (see `carry`). -/
def parity : Nat := 2

/-- Auxiliary-carry flag bit position (see `carry`). -/
def auxCarry : Nat := 4

/-- Zero flag bit position (see `carry`). -/
def zero : Nat := 6

/-- Sign flag bit position (see `carry`). -/
def sign : Nat := 7

/-- Modelled from the spec: `lowBitsOf x n` is the low `n` bits of `x`
(a helper of the header, not part of the sources). -/
def lowBitsOf (x n : Nat) : Nat := x % 2 ^ n

/-- Modelled from the spec: `highBitsOf x n` is the high `n` bits of the
byte `x` (a helper of the header, not part of the sources). -/
def highBitsOf (x n : Nat) : Nat := x / 2 ^ (8 - n)

/-- The processor state: `cpu` of the sources.  `ram` is the borrowed memory,
`portIn` the input-port callback, `outLog` records the `OUT` calls made to the
output-port callback. -/
structure cpu where
  A : Nat
  flags : Nat
  B : Nat
  C : Nat
  D : Nat
  E : Nat
  H : Nat
  L : Nat
  SP : Nat
  PC : Nat
  ram : Nat → Nat
  halted : Bool
  interruptsEnabled : Bool
  interruptPending : Bool
  interruptVector : Nat
  portIn : Nat → Nat
  outLog : List (Nat × Nat)

/-- `(flags >> f) % 2`, the value of one flag bit (`cpu::getFlag`). -/
def getFlagVal (x f : Nat) : Nat := (x >>> f) % 2

/-- The flags byte after `cpu::setFlag`: `flags |= (1 << f)` or
`flags &= ~(1U << f)`, stored back into the 8-bit flags register. -/
def setFlagVal (x f : Nat) (b : Bool) : Nat :=
  if b then (x ||| (1 <<< f)) % 256
  else (x &&& (4294967295 ^^^ (1 <<< f))) % 256

/-- `cpu::getFlag`. -/
def getFlag (s : cpu) (f : Nat) : Nat := getFlagVal s.flags f

/-- `cpu::setFlag`. -/
def setFlag (s : cpu) (f : Nat) (b : Bool) : cpu :=
  { s with flags := setFlagVal s.flags f b }

/-- The register pair `BC()`: `B` is the high half, `C` the low half. -/
def BC (s : cpu) : Nat := 256 * s.B + s.C

/-- The register pair `DE()`. -/
def DE (s : cpu) : Nat := 256 * s.D + s.E

/-- The register pair `HL()`. -/
def HL (s : cpu) : Nat := 256 * s.H + s.L

/-- The register pair `PSW()`: accumulator is the high half, flags the low. -/
def PSW (s : cpu) : Nat := 256 * s.A + s.flags

/-- Store a 16-bit value into the `BC` pair (high byte to `B`, low to `C`). -/
def setBC (s : cpu) (v : Nat) : cpu := { s with B := v / 256 % 256, C := v % 256 }

/-- Store a 16-bit value into the `DE` pair. -/
def setDE (s : cpu) (v : Nat) : cpu := { s with D := v / 256 % 256, E := v % 256 }

/-- Store a 16-bit value into the `HL` pair. -/
def setHL (s : cpu) (v : Nat) : cpu := { s with H := v / 256 % 256, L := v % 256 }

/-- Store a 16-bit value into the `PSW` pair (high byte to `A`, low to flags). -/
def setPSW (s : cpu) (v : Nat) : cpu := { s with A := v / 256 % 256, flags := v % 256 }

/-- Read one byte of memory (memory cells have type `byte` in the sources). -/
def rd8 (s : cpu) (a : Nat) : Nat := s.ram a % 256

/-- Read a 16-bit little-endian value from two consecutive memory cells
(the `*(bytePair*)(ram + ...)` reads of the sources). -/
def rd16 (s : cpu) (a : Nat) : Nat := rd8 s a + 256 * rd8 s (a + 1)

/-- Write one byte of memory. -/
def wr8 (s : cpu) (a v : Nat) : cpu :=
  { s with ram := Function.update s.ram a (v % 256) }

/-- Write a 16-bit value little-endian into two consecutive memory cells. -/
def wr16 (s : cpu) (a v : Nat) : cpu := wr8 (wr8 s a (v % 256)) (a + 1) (v / 256 % 256)

/-- `cpu::get8`: fetch the byte at `PC` and advance `PC`. -/
def get8 (s : cpu) : Nat × cpu :=
  (rd8 s s.PC, { s with PC := (s.PC + 1) % 65536 })

/-- `cpu::get16`: fetch a little-endian 16-bit value at `PC`, advance `PC` by 2. -/
def get16 (s : cpu) : Nat × cpu :=
  (rd16 s s.PC, { s with PC := (s.PC + 2) % 65536 })

/-- Number of set bits among the low 8 bits, for the parity flag
(`__builtin_parity` of an 8-bit result in the sources). -/
def popcount8 (x : Nat) : Nat :=
  x % 2 + (x >>> 1) % 2 + (x >>> 2) % 2 + (x >>> 3) % 2 +
  (x >>> 4) % 2 + (x >>> 5) % 2 + (x >>> 6) % 2 + (x >>> 7) % 2

/-- `cpu::updateFlags` on an 8-bit result: Sign from the top bit, Zero from
equality with 0, Parity set when the number of set bits is even. -/
def updateFlags (s : cpu) (result : Nat) : cpu :=
  setFlag (setFlag (setFlag s sign (decide (128 ≤ result)))
    zero (decide (result = 0)))
    parity (decide (popcount8 result % 2 = 0))

/-- `cpu::updateAuxCarryFlag`: set the auxiliary carry when the low nibbles of
`a` and `b` sum past 15. -/
def updateAuxCarryFlag (s : cpu) (a b : Nat) : cpu :=
  setFlag s auxCarry (decide (15 < lowBitsOf b 4 + lowBitsOf a 4))

/-- `cpu::add`: the carry-in is folded into the 8-bit temporary `added`
before the carry/aux-carry tests, exactly as in the sources. -/
def add (s : cpu) (r8 : Nat) (withCarry : Bool) : cpu :=
  let added := if withCarry && (getFlag s carry != 0) then (r8 + 1) % 256 else r8
  let s1 := setFlag s carry (decide (255 - s.A < added))
  let s2 := updateAuxCarryFlag s1 s.A added
  let s3 := { s2 with A := (s2.A + added) % 256 }
  updateFlags s3 s3.A

/-- `cpu::sub`: the borrow-in is folded into the 8-bit temporary `added`;
the auxiliary carry flag is not recomputed on this path. -/
def sub (s : cpu) (r8 : Nat) (withBorrow : Bool) : cpu :=
  let added := if withBorrow && (getFlag s carry != 0) then (r8 + 1) % 256 else r8
  let s1 := setFlag s carry (decide (s.A < added))
  let s2 := { s1 with A := (s1.A + 256 - added) % 256 }
  updateFlags s2 s2.A

/-- `cpu::cmp`: `sub` for the flags only, restoring the accumulator. -/
def cmp (s : cpu) (r8 : Nat) : cpu :=
  let copyA := s.A
  let s1 := sub s r8 false
  { s1 with A := copyA }

/-- `cpu::logicAnd`. -/
def logicAnd (s : cpu) (r8 : Nat) : cpu :=
  let newA := s.A &&& r8
  setFlag (updateFlags { s with A := newA } newA) carry false

/-- `cpu::logicOr`. -/
def logicOr (s : cpu) (r8 : Nat) : cpu :=
  let newA := (s.A ||| r8) % 256
  setFlag (updateFlags { s with A := newA } newA) carry false

/-- `cpu::logicXor`. -/
def logicXor (s : cpu) (r8 : Nat) : cpu :=
  let newA := (s.A ^^^ r8) % 256
  setFlag (updateFlags { s with A := newA } newA) carry false

/-- `cpu::inr` as a value transformer: returns the flag-updated state and the
incremented byte, which the caller stores back into the target location. -/
def inrStep (s : cpu) (x : Nat) : cpu × Nat :=
  let s1 := setFlag s auxCarry (decide (lowBitsOf x 4 = 15))
  let v := (x + 1) % 256
  (updateFlags s1 v, v)

/-- `cpu::dcr` as a value transformer (see `inrStep`). -/
def dcrStep (s : cpu) (x : Nat) : cpu × Nat :=
  let s1 := setFlag s auxCarry (decide (lowBitsOf x 4 = 0))
  let v := (x + 255) % 256
  (updateFlags s1 v, v)

/-- `cpu::dad`: 16-bit add into `HL`, carry on 16-bit overflow. -/
def dad (s : cpu) (r16 : Nat) : cpu :=
  let s1 := setFlag s carry (decide (65535 - HL s < r16))
  setHL s1 ((HL s1 + r16) % 65536)

/-- `cpu::push`: decrement `SP` by 2 and store the pair little-endian. -/
def push (s : cpu) (r16 : Nat) : cpu :=
  let sp := (s.SP + 65534) % 65536
  wr16 { s with SP := sp } sp r16

/-- `cpu::pop`: read the pair at `SP`, store it through `write`, bump `SP`,
then unconditionally force flag bits 5 and 3 to 0 and bit 1 to 1. -/
def popInto (s : cpu) (write : cpu → Nat → cpu) : cpu :=
  let s1 := write s (rd16 s s.SP)
  let s2 := { s1 with SP := (s1.SP + 2) % 65536 }
  setFlag (setFlag (setFlag s2 5 false) 3 false) 1 true

/-- `cpu::rst`: push `PC`, then jump to `8 * rstNum`. -/
def rst (s : cpu) (rstNum : Nat) : cpu :=
  let s1 := push s s.PC
  { s1 with PC := 8 * rstNum }

/-- `cpu::jmp`: always consume the 16-bit address, redirect only on the
condition. -/
def jmp (s : cpu) (condition : Bool) : cpu :=
  let p := get16 s
  if condition then { p.2 with PC := p.1 } else p.2

/-- `cpu::ret`: pop `PC` only on the condition. -/
def ret (s : cpu) (condition : Bool) : cpu :=
  if condition then popInto s (fun t v => { t with PC := v }) else s

/-- `cpu::call`: always consume the 16-bit address; push and redirect only on
the condition. -/
def call (s : cpu) (condition : Bool) : cpu :=
  let p := get16 s
  if condition then { push p.2 p.2.PC with PC := p.1 } else p.2

/-- `cpu::interrupt`: a no-op unless interrupts are enabled; when enabled it
disables interrupts, latches the vector and marks an interrupt pending. -/
def interrupt (s : cpu) (interruptVector : Nat) : cpu :=
  if s.interruptsEnabled then
    { s with interruptsEnabled := false, interruptPending := true,
             interruptVector := interruptVector }
  else s

/-- `cpu::exec` for opcodes 0x00-0x3f (the data-transfer/arithmetic-prefix
quadrant of the single C++ `switch`; the dispatch is split into four
quadrants only to keep the match small, the cases and bodies are verbatim).
A value matched by no `case` of the `switch` falls through and leaves the
state unchanged, which is the catch-all arm. -/
def execQ0 (s : cpu) (instr : Nat) : cpu :=
  match instr with
  -- NOP, incl. undocumented
  | 0x00 | 0x08 | 0x10 | 0x18 | 0x20 | 0x28 | 0x30 | 0x38 => s
  -- LXI r16, d16
  | 0x01 => let p := get16 s; setBC p.2 p.1
  | 0x11 => let p := get16 s; setDE p.2 p.1
  | 0x21 => let p := get16 s; setHL p.2 p.1
  | 0x31 => let p := get16 s; { p.2 with SP := p.1 }
  -- STAX r16
  | 0x02 => wr8 s (BC s) s.A
  | 0x12 => wr8 s (DE s) s.A
  -- LDAX r16
  | 0x0a => { s with A := rd8 s (BC s) }
  | 0x1a => { s with A := rd8 s (DE s) }
  -- SHLD a16
  | 0x22 => let p := get16 s; wr16 p.2 p.1 (HL p.2)
  -- LHLD a16
  | 0x2a => let p := get16 s; setHL p.2 (rd16 p.2 p.1)
  -- STA a16
  | 0x32 => let p := get16 s; wr8 p.2 p.1 p.2.A
  -- LDA a16
  | 0x3a => let p := get16 s; { p.2 with A := rd8 p.2 p.1 }
  -- INX r16
  | 0x03 => setBC s ((BC s + 1) % 65536)
  | 0x13 => setDE s ((DE s + 1) % 65536)
  | 0x23 => setHL s ((HL s + 1) % 65536)
  | 0x33 => { s with SP := (s.SP + 1) % 65536 }
  -- DCX r16
  | 0x0b => setBC s ((BC s + 65535) % 65536)
  | 0x1b => setDE s ((DE s + 65535) % 65536)
  | 0x2b => setHL s ((HL s + 65535) % 65536)
  | 0x3b => { s with SP := (s.SP + 65535) % 65536 }
  -- INR r8
  | 0x04 => let q := inrStep s s.B; { q.1 with B := q.2 }
  | 0x0c => let q := inrStep s s.C; { q.1 with C := q.2 }
  | 0x14 => let q := inrStep s s.D; { q.1 with D := q.2 }
  | 0x1c => let q := inrStep s s.E; { q.1 with E := q.2 }
  | 0x24 => let q := inrStep s s.H; { q.1 with H := q.2 }
  | 0x2c => let q := inrStep s s.L; { q.1 with L := q.2 }
  | 0x34 => let q := inrStep s (rd8 s (HL s)); wr8 q.1 (HL s) q.2
  | 0x3c => let q := inrStep s s.A; { q.1 with A := q.2 }
  -- DCR r8
  | 0x05 => let q := dcrStep s s.B; { q.1 with B := q.2 }
  | 0x0d => let q := dcrStep s s.C; { q.1 with C := q.2 }
  | 0x15 => let q := dcrStep s s.D; { q.1 with D := q.2 }
  | 0x1d => let q := dcrStep s s.E; { q.1 with E := q.2 }
  | 0x25 => let q := dcrStep s s.H; { q.1 with H := q.2 }
  | 0x2d => let q := dcrStep s s.L; { q.1 with L := q.2 }
  | 0x35 => let q := dcrStep s (rd8 s (HL s)); wr8 q.1 (HL s) q.2
  | 0x3d => let q := dcrStep s s.A; { q.1 with A := q.2 }
  -- MVI r8
  | 0x06 => let p := get8 s; { p.2 with B := p.1 }
  | 0x0e => let p := get8 s; { p.2 with C := p.1 }
  | 0x16 => let p := get8 s; { p.2 with D := p.1 }
  | 0x1e => let p := get8 s; { p.2 with E := p.1 }
  | 0x26 => let p := get8 s; { p.2 with H := p.1 }
  | 0x2e => let p := get8 s; { p.2 with L := p.1 }
  | 0x36 => let p := get8 s; wr8 p.2 (HL p.2) p.1
  | 0x3e => let p := get8 s; { p.2 with A := p.1 }
  -- RLC: carry from bit 7, left shift, bit 0 from old bit 7
  | 0x07 =>
    let temp := highBitsOf s.A 1
    let s1 := setFlag s carry (decide (temp ≠ 0))
    { s1 with A := (s1.A * 2 % 256 + temp) % 256 }
  -- RRC: carry from bit 0, right shift, bit 7 from old bit 0
  | 0x0f =>
    let temp := lowBitsOf s.A 1
    let s1 := setFlag s carry (decide (temp ≠ 0))
    { s1 with A := (s1.A / 2 + 128 * temp) % 256 }
  -- RAL: like RLC but bit 0 is not replaced with bit 7
  | 0x17 =>
    let s1 := setFlag s carry (decide (highBitsOf s.A 1 ≠ 0))
    { s1 with A := s1.A * 2 % 256 }
  -- RAR: like RRC but bit 7 is not replaced with bit 0
  | 0x1f =>
    let s1 := setFlag s carry (decide (lowBitsOf s.A 1 ≠ 0))
    { s1 with A := s1.A / 2 }
  -- DAA
  | 0x27 =>
    let s1 := if getFlag s auxCarry ≠ 0 ∨ 9 < lowBitsOf s.A 4 then
        setFlag { s with A := (s.A + 6) % 256 } auxCarry true
      else s
    let s2 := if getFlag s1 carry ≠ 0 ∨ 9 < highBitsOf s1.A 4 then
        setFlag { s1 with A := (s1.A + 96) % 256 } carry true
      else s1
    updateFlags s2 s2.A
  -- STC
  | 0x37 => setFlag s carry true
  -- CMA
  | 0x2f => { s with A := (s.A ^^^ 255) % 256 }
  -- CMC
  | 0x3f => setFlag s carry (decide (getFlag s carry = 0))
  -- DAD r16
  | 0x09 => dad s (BC s)
  | 0x19 => dad s (DE s)
  | 0x29 => dad s (HL s)
  | 0x39 => dad s s.SP
  -- a byte matched by no case of the switch: fall through, state unchanged
  | _ => s

/-- `cpu::exec` for opcodes 0x40-0x7f: the MOV block and HLT (see `execQ0`
for the quadrant split). -/
def execQ1 (s : cpu) (instr : Nat) : cpu :=
  match instr with
  -- MOV r8, r8
  | 0x40 => { s with B := s.B }
  | 0x41 => { s with B := s.C }
  | 0x42 => { s with B := s.D }
  | 0x43 => { s with B := s.E }
  | 0x44 => { s with B := s.H }
  | 0x45 => { s with B := s.L }
  | 0x46 => { s with B := rd8 s (HL s) }
  | 0x47 => { s with B := s.A }
  | 0x48 => { s with C := s.B }
  | 0x49 => { s with C := s.C }
  | 0x4a => { s with C := s.D }
  | 0x4b => { s with C := s.E }
  | 0x4c => { s with C := s.H }
  | 0x4d => { s with C := s.L }
  | 0x4e => { s with C := rd8 s (HL s) }
  | 0x4f => { s with C := s.A }
  | 0x50 => { s with D := s.B }
  | 0x51 => { s with D := s.C }
  | 0x52 => { s with D := s.D }
  | 0x53 => { s with D := s.E }
  | 0x54 => { s with D := s.H }
  | 0x55 => { s with D := s.L }
  | 0x56 => { s with D := rd8 s (HL s) }
  | 0x57 => { s with D := s.A }
  | 0x58 => { s with E := s.B }
  | 0x59 => { s with E := s.C }
  | 0x5a => { s with E := s.D }
  | 0x5b => { s with E := s.E }
  | 0x5c => { s with E := s.H }
  | 0x5d => { s with E := s.L }
  | 0x5e => { s with E := rd8 s (HL s) }
  | 0x5f => { s with E := s.A }
  | 0x60 => { s with H := s.B }
  | 0x61 => { s with H := s.C }
  | 0x62 => { s with H := s.D }
  | 0x63 => { s with H := s.E }
  | 0x64 => { s with H := s.H }
  | 0x65 => { s with H := s.L }
  | 0x66 => { s with H := rd8 s (HL s) }
  | 0x67 => { s with H := s.A }
  | 0x68 => { s with L := s.B }
  | 0x69 => { s with L := s.C }
  | 0x6a => { s with L := s.D }
  | 0x6b => { s with L := s.E }
  | 0x6c => { s with L := s.H }
  | 0x6d => { s with L := s.L }
  | 0x6e => { s with L := rd8 s (HL s) }
  | 0x6f => { s with L := s.A }
  | 0x70 => wr8 s (HL s) s.B
  | 0x71 => wr8 s (HL s) s.C
  | 0x72 => wr8 s (HL s) s.D
  | 0x73 => wr8 s (HL s) s.E
  | 0x74 => wr8 s (HL s) s.H
  | 0x75 => wr8 s (HL s) s.L
  | 0x77 => wr8 s (HL s) s.A
  | 0x78 => { s with A := s.B }
  | 0x79 => { s with A := s.C }
  | 0x7a => { s with A := s.D }
  | 0x7b => { s with A := s.E }
  | 0x7c => { s with A := s.H }
  | 0x7d => { s with A := s.L }
  | 0x7e => { s with A := rd8 s (HL s) }
  | 0x7f => { s with A := s.A }
  -- HLT
  | 0x76 => { s with halted := true }
  -- a byte matched by no case of the switch: fall through, state unchanged
  | _ => s

/-- `cpu::exec` for opcodes 0x80-0xbf: the register-operand arithmetic and
logic block (see `execQ0` for the quadrant split). -/
def execQ2 (s : cpu) (instr : Nat) : cpu :=
  match instr with
  -- ADD r8
  | 0x80 => add s s.B false
  | 0x81 => add s s.C false
  | 0x82 => add s s.D false
  | 0x83 => add s s.E false
  | 0x84 => add s s.H false
  | 0x85 => add s s.L false
  | 0x86 => add s (rd8 s (HL s)) false
  | 0x87 => add s s.A false
  -- ADC r8
  | 0x88 => add s s.B true
  | 0x89 => add s s.C true
  | 0x8a => add s s.D true
  | 0x8b => add s s.E true
  | 0x8c => add s s.H true
  | 0x8d => add s s.L true
  | 0x8e => add s (rd8 s (HL s)) true
  | 0x8f => add s s.A true
  -- SUB r8
  | 0x90 => sub s s.B false
  | 0x91 => sub s s.C false
  | 0x92 => sub s s.D false
  | 0x93 => sub s s.E false
  | 0x94 => sub s s.H false
  | 0x95 => sub s s.L false
  | 0x96 => sub s (rd8 s (HL s)) false
  | 0x97 => sub s s.A false
  -- SBB r8
  | 0x98 => sub s s.B true
  | 0x99 => sub s s.C true
  | 0x9a => sub s s.D true
  | 0x9b => sub s s.E true
  | 0x9c => sub s s.H true
  | 0x9d => sub s s.L true
  | 0x9e => sub s (rd8 s (HL s)) true
  | 0x9f => sub s s.A true
  -- ANA r8
  | 0xa0 => logicAnd s s.B
  | 0xa1 => logicAnd s s.C
  | 0xa2 => logicAnd s s.D
  | 0xa3 => logicAnd s s.E
  | 0xa4 => logicAnd s s.H
  | 0xa5 => logicAnd s s.L
  | 0xa6 => logicAnd s (rd8 s (HL s))
  | 0xa7 => logicAnd s s.A
  -- XRA r8
  | 0xa8 => logicXor s s.B
  | 0xa9 => logicXor s s.C
  | 0xaa => logicXor s s.D
  | 0xab => logicXor s s.E
  | 0xac => logicXor s s.H
  | 0xad => logicXor s s.L
  | 0xae => logicXor s (rd8 s (HL s))
  | 0xaf => logicXor s s.A
  -- ORA r8
  | 0xb0 => logicOr s s.B
  | 0xb1 => logicOr s s.C
  | 0xb2 => logicOr s s.D
  | 0xb3 => logicOr s s.E
  | 0xb4 => logicOr s s.H
  | 0xb5 => logicOr s s.L
  | 0xb6 => logicOr s (rd8 s (HL s))
  | 0xb7 => logicOr s s.A
  -- CMP r8
  | 0xb8 => cmp s s.B
  | 0xb9 => cmp s s.C
  | 0xba => cmp s s.D
  | 0xbb => cmp s s.E
  | 0xbc => cmp s s.H
  | 0xbd => cmp s s.L
  | 0xbe => cmp s (rd8 s (HL s))
  | 0xbf => cmp s s.A
  -- a byte matched by no case of the switch: fall through, state unchanged
  | _ => s

/-- `cpu::exec` for opcodes 0xc0-0xff: immediates, stack, I/O and control
transfer (see `execQ0` for the quadrant split).  0xCB is matched by no case
of the C++ `switch`, so it reaches the catch-all arm: state unchanged. -/
def execQ3 (s : cpu) (instr : Nat) : cpu :=
  match instr with
  -- ADI
  | 0xc6 => let p := get8 s; add p.2 p.1 false
  -- ACI
  | 0xce => let p := get8 s; add p.2 p.1 true
  -- SUI
  | 0xd6 => let p := get8 s; sub p.2 p.1 false
  -- SBI
  | 0xde => let p := get8 s; sub p.2 p.1 true
  -- ANI
  | 0xe6 => let p := get8 s; logicAnd p.2 p.1
  -- XRI
  | 0xee => let p := get8 s; logicXor p.2 p.1
  -- ORI
  | 0xf6 => let p := get8 s; logicOr p.2 p.1
  -- CPI
  | 0xfe => let p := get8 s; cmp p.2 p.1
  -- XCHG
  | 0xeb => { s with H := s.D, L := s.E, D := s.H, E := s.L }
  -- XTHL
  | 0xe3 =>
    let temp := rd16 s s.SP
    let s1 := wr16 s s.SP (HL s)
    setHL s1 temp
  -- SPHL
  | 0xf9 => { s with SP := HL s % 65536 }
  -- PCHL
  | 0xe9 => { s with PC := HL s % 65536 }
  -- DI
  | 0xf3 => { s with interruptsEnabled := false }
  -- EI
  | 0xfb => { s with interruptsEnabled := true }
  -- PUSH r16
  | 0xc5 => push s (BC s)
  | 0xd5 => push s (DE s)
  | 0xe5 => push s (HL s)
  | 0xf5 => push s (PSW s)
  -- POP r16
  | 0xc1 => popInto s setBC
  | 0xd1 => popInto s setDE
  | 0xe1 => popInto s setHL
  | 0xf1 => popInto s setPSW
  -- IN p8
  | 0xdb => let p := get8 s; { p.2 with A := p.2.portIn p.1 % 256 }
  -- OUT p8
  | 0xd3 => let p := get8 s; { p.2 with outLog := p.2.outLog ++ [(p.1, p.2.A)] }
  -- RST
  | 0xc7 => rst s 0
  | 0xcf => rst s 1
  | 0xd7 => rst s 2
  | 0xdf => rst s 3
  | 0xe7 => rst s 4
  | 0xef => rst s 5
  | 0xf7 => rst s 6
  | 0xff => rst s 7
  -- JNZ a16
  | 0xc2 => jmp s (decide (getFlag s zero = 0))
  -- JMP a16
  | 0xc3 => jmp s true
  -- JZ a16
  | 0xca => jmp s (decide (getFlag s zero ≠ 0))
  -- JNC a16
  | 0xd2 => jmp s (decide (getFlag s carry = 0))
  -- JC a16
  | 0xda => jmp s (decide (getFlag s carry ≠ 0))
  -- JPO a16
  | 0xe2 => jmp s (decide (getFlag s parity = 0))
  -- JPE a16
  | 0xea => jmp s (decide (getFlag s parity ≠ 0))
  -- JP a16
  | 0xf2 => jmp s (decide (getFlag s sign = 0))
  -- JM a16
  | 0xfa => jmp s (decide (getFlag s sign ≠ 0))
  -- RET, incl. undocumented
  | 0xc9 | 0xd9 => ret s true
  -- RNZ
  | 0xc0 => ret s (decide (getFlag s zero = 0))
  -- RZ
  | 0xc8 => ret s (decide (getFlag s zero ≠ 0))
  -- RNC
  | 0xd0 => ret s (decide (getFlag s carry = 0))
  -- RC
  | 0xd8 => ret s (decide (getFlag s carry ≠ 0))
  -- RPO
  | 0xe0 => ret s (decide (getFlag s parity = 0))
  -- RPE
  | 0xe8 => ret s (decide (getFlag s parity ≠ 0))
  -- RP
  | 0xf0 => ret s (decide (getFlag s sign = 0))
  -- RM
  | 0xf8 => ret s (decide (getFlag s sign ≠ 0))
  -- CALL, incl. undocumented
  | 0xcd | 0xdd | 0xed | 0xfd => call s true
  -- CNZ
  | 0xc4 => call s (decide (getFlag s zero = 0))
  -- CZ
  | 0xcc => call s (decide (getFlag s zero ≠ 0))
  -- CNC
  | 0xd4 => call s (decide (getFlag s carry = 0))
  -- CC
  | 0xdc => call s (decide (getFlag s carry ≠ 0))
  -- CPO
  | 0xe4 => call s (decide (getFlag s parity = 0))
  -- CPE
  | 0xec => call s (decide (getFlag s parity ≠ 0))
  -- CP
  | 0xf4 => call s (decide (getFlag s sign = 0))
  -- CM
  | 0xfc => call s (decide (getFlag s sign ≠ 0))
  -- 0xCB (and nothing else here) is matched by no case: state unchanged
  | _ => s

/-- `cpu::exec`: the total 256-entry opcode dispatch of the C++ `switch`,
assembled from the four quadrant functions. -/
def exec (s : cpu) (instr : Nat) : cpu :=
  if instr < 0x40 then execQ0 s instr
  else if instr < 0x80 then execQ1 s instr
  else if instr < 0xc0 then execQ2 s instr
  else execQ3 s instr

/-- `cpu::step`: service a pending interrupt when interrupts are enabled,
else fetch and execute when not halted, else do nothing. -/
def step (s : cpu) : cpu :=
  if s.interruptsEnabled && s.interruptPending then
    let s1 := exec s s.interruptVector
    { s1 with interruptPending := false, halted := false }
  else if !s.halted then
    let p := get8 s
    exec p.2 p.1
  else s

/-- `intel8080::asciiToHex`: the value of a hexadecimal digit character
(given as its ASCII code); any other character decodes to 0. -/
def asciiToHex (c : Nat) : Nat :=
  if 48 ≤ c ∧ c ≤ 57 then c - 48
  else if 65 ≤ c ∧ c ≤ 70 then c - 65 + 10
  else 0

/-- The mutable locals of `intel8080::loadIntelHexFile` that persist across the
character loop: the running two-digit value, the current record header fields,
and the address-keyed record map.  (In the C++ these locals start
uninitialized; they are zero here, which no well-formed record can observe
because each field is written before it is used.) -/
structure hexParseState where
  val : Nat
  byteCount : Nat
  adr : Nat
  recordType : Nat
  records : List (Nat × List Nat)

/-- `records[adr].push_back(v)` on a `std::map` kept as an association list
sorted by key in increasing order, which is also the order `std::map`
iterates in. -/
def recordsAppend : List (Nat × List Nat) → Nat → Nat → List (Nat × List Nat)
  | [], k, v => [(k, [v])]
  | (k1, vs) :: rest, k, v =>
    if k < k1 then (k, [v]) :: (k1, vs) :: rest
    else if k = k1 then (k1, vs ++ [v]) :: rest
    else (k1, vs) :: recordsAppend rest k v

/-- The `switch(byteNum)` of the loader: route a completed two-digit value to
the header field (or the data list) it belongs to, with the stores into
`byte` / `bytePair` locals truncated accordingly. -/
def processPair (st : hexParseState) (byteNum : Nat) : hexParseState :=
  match byteNum with
  | 0 => { st with byteCount := st.val % 256 }
  | 1 => { st with adr := st.val * 256 % 65536 }
  | 2 => { st with adr := (st.adr + st.val) % 65536 }
  | 3 => { st with recordType := st.val % 256 }
  | _ =>
    if byteNum - 4 ≤ st.byteCount then
      { st with records := recordsAppend st.records st.adr (st.val % 256) }
    else st

/-- The inner character loop of the loader, beginning at `i = 1`: an even
offset `i - 1` starts a two-digit value, an odd offset completes it and
dispatches on the byte index. -/
def processChars (st : hexParseState) : Nat → List Nat → hexParseState
  | _, [] => st
  | i, c :: rest =>
    let st1 :=
      if (i - 1) % 2 = 0 then { st with val := 16 * asciiToHex c }
      else processPair { st with val := st.val + asciiToHex c } ((i - 1) / 2)
    processChars st1 (i + 1) rest

/-- The positions the outer loop of the loader visits: `colonPos` starts at 0
(whatever character sits there) and then moves to each subsequent position of
a colon (ASCII 58), in increasing order. -/
def colonPositions (cs : List Nat) : List Nat :=
  0 :: (List.range cs.length).filter (fun i => decide (1 ≤ i) && decide (cs.getD i 0 = 58))

/-- The characters of one record: everything after the colon position up to,
but not including, the next colon or the end of the file. -/
def recordChunk (cs : List Nat) (colonPos : Nat) : List Nat :=
  (cs.drop (colonPos + 1)).takeWhile (fun c => c != 58)

/-- The parsing phase of `intel8080::loadIntelHexFile`: run the record loop
over the whole text and return the accumulated address-keyed record map. -/
def parseRecords (cs : List Nat) : List (Nat × List Nat) :=
  ((colonPositions cs).foldl
    (fun st p => processChars st 1 (recordChunk cs p))
    ⟨0, 0, 0, 0, []⟩).records

/-- Write one record run into memory: byte `i` of the sequence goes to
`adr + i`. -/
def writeRun (m : Nat → Nat) (adr : Nat) : List Nat → (Nat → Nat)
  | [] => m
  | b :: rest => writeRun (Function.update m adr b) (adr + 1) rest

/-- The write-back phase of `intel8080::loadIntelHexFile`: write every record
to memory in increasing key order. -/
def writeRecords (m : Nat → Nat) (records : List (Nat × List Nat)) : Nat → Nat :=
  records.foldl (fun acc r => writeRun acc r.1 r.2) m

/-- `intel8080::loadIntelHexFile` on a file that did open, given its text as a
list of ASCII codes: parse all records, write them to memory, return `true`.
(The only `false` return of the C++ function is the file-open failure, which
is outside this model.) -/
def loadIntelHexFile (cs : List Nat) (memory : Nat → Nat) : Bool × (Nat → Nat) :=
  (true, writeRecords memory (parseRecords cs))

/-- ASCII codes of the text `:0300000002030405\n:00000001FF\n` used by the
hex-load scenario. -/
def hexContentC2 : List Nat :=
  [58, 48, 51, 48, 48, 48, 48, 48, 48, 48, 50, 48, 51, 48, 52, 48, 53, 10,
   58, 48, 48, 48, 48, 48, 48, 48, 49, 70, 70, 10]

/-- A freshly constructed processor: all state zero except the fixed flag
bit 1, which the `cpu` constructor sets; memory all zero; the input-port
callback returns 0. -/
def cpu0 : cpu :=
  { A := 0, flags := 2, B := 0, C := 0, D := 0, E := 0, H := 0, L := 0,
    SP := 0, PC := 0, ram := fun _ => 0, halted := false,
    interruptsEnabled := false, interruptPending := false, interruptVector := 0,
    portIn := fun _ => 0, outLog := [] }

/-- A concrete register file with distinct byte values in every register,
used to exercise the push/pop round trip. -/
def cpuW6 : cpu :=
  { cpu0 with
    A := 1, flags := 255, B := 2, C := 3, D := 4, E := 5, H := 6, L := 7, SP := 100 }

/-- The conditional-jump and conditional-call opcodes. -/
def condJumpCallOps : List Nat :=
  [0xc2, 0xca, 0xd2, 0xda, 0xe2, 0xea, 0xf2, 0xfa,
   0xc4, 0xcc, 0xd4, 0xdc, 0xe4, 0xec, 0xf4, 0xfc]

/-- The branch predicate each conditional jump/call opcode passes to
`jmp`/`call`, exactly as in the dispatch. -/
def condOf (s : cpu) (op : Nat) : Bool :=
  match op with
  | 0xc2 | 0xc4 => decide (getFlag s zero = 0)
  | 0xca | 0xcc => decide (getFlag s zero ≠ 0)
  | 0xd2 | 0xd4 => decide (getFlag s carry = 0)
  | 0xda | 0xdc => decide (getFlag s carry ≠ 0)
  | 0xe2 | 0xe4 => decide (getFlag s parity = 0)
  | 0xea | 0xec => decide (getFlag s parity ≠ 0)
  | 0xf2 | 0xf4 => decide (getFlag s sign = 0)
  | 0xfa | 0xfc => decide (getFlag s sign ≠ 0)
  | _ => true

/-- The behaviour of `add` claimed by C3, amended: the carry-in is folded
into the 8-bit operand byte `added` before the Carry and Auxiliary-Carry
tests, so Carry is set exactly when `A + added` exceeds 255 and Auxiliary
Carry exactly when the low nibbles of `A` and `added` sum past 15; the new
accumulator and the Sign/Zero/Parity flags are as claimed. -/
def addSpec (s : cpu) (r8 : Nat) (withCarry : Bool) : Prop :=
  let cin := if withCarry && (getFlag s carry != 0) then 1 else 0
  let added := (r8 + cin) % 256
  let newA := (s.A + r8 + cin) % 256
  (add s r8 withCarry).A = newA ∧
  getFlag (add s r8 withCarry) carry = (if 255 < s.A + added then 1 else 0) ∧
  getFlag (add s r8 withCarry) auxCarry =
    (if 15 < lowBitsOf s.A 4 + lowBitsOf added 4 then 1 else 0) ∧
  getFlag (add s r8 withCarry) sign = (if 128 ≤ newA then 1 else 0) ∧
  getFlag (add s r8 withCarry) zero = (if newA = 0 then 1 else 0) ∧
  getFlag (add s r8 withCarry) parity = (if popcount8 newA % 2 = 0 then 1 else 0)

/-- The behaviour of `sub` claimed by C4, amended: the borrow-in is folded
into the 8-bit operand byte `added` before the borrow test, so Carry is set
exactly when `added` exceeds `A`; the new accumulator, the untouched
Auxiliary Carry and the Sign/Zero/Parity flags are as claimed. -/
def subSpec (s : cpu) (r8 : Nat) (withBorrow : Bool) : Prop :=
  let cin := if withBorrow && (getFlag s carry != 0) then 1 else 0
  let added := (r8 + cin) % 256
  let newA := (s.A + 256 - added) % 256
  (sub s r8 withBorrow).A = newA ∧
  getFlag (sub s r8 withBorrow) carry = (if s.A < added then 1 else 0) ∧
  getFlag (sub s r8 withBorrow) auxCarry = getFlag s auxCarry ∧
  getFlag (sub s r8 withBorrow) sign = (if 128 ≤ newA then 1 else 0) ∧
  getFlag (sub s r8 withBorrow) zero = (if newA = 0 then 1 else 0) ∧
  getFlag (sub s r8 withBorrow) parity = (if popcount8 newA % 2 = 0 then 1 else 0)

/-- A flag bit read agrees with `Nat.testBit` on the flags byte. -/
theorem getFlagVal_eq_testBit (x f : Nat) : getFlagVal x f = (x.testBit f).toNat := by
  unfold getFlagVal
  rw [Nat.shiftRight_eq_div_pow, Nat.testBit_to_div_mod]
  rcases Nat.mod_two_eq_zero_or_one (x / 2 ^ f) with h | h <;> simp [h]

/-- Reading a flag bit just written yields the written value. -/
theorem getFlagVal_setFlagVal_self (x f : Nat) (b : Bool) (hf : f < 8) :
    getFlagVal (setFlagVal x f b) f = if b then 1 else 0 := by
  rw [getFlagVal_eq_testBit]
  cases b
  · show (((x &&& (4294967295 ^^^ (1 <<< f))) % 256).testBit f).toNat = 0
    rw [Nat.one_shiftLeft, show (256 : Nat) = 2 ^ 8 from rfl,
      show (4294967295 : Nat) = 2 ^ 32 - 1 from rfl,
      Nat.testBit_mod_two_pow, Nat.testBit_and, Nat.testBit_xor,
      Nat.testBit_two_pow_sub_one, Nat.testBit_two_pow_self]
    simp [show f < 32 by omega]
  · show (((x ||| (1 <<< f)) % 256).testBit f).toNat = 1
    rw [Nat.one_shiftLeft, show (256 : Nat) = 2 ^ 8 from rfl,
      Nat.testBit_mod_two_pow, Nat.testBit_or, Nat.testBit_two_pow_self]
    simp [hf]

/-- Writing one flag bit leaves every other flag bit of the byte unchanged. -/
theorem getFlagVal_setFlagVal_ne (x f g : Nat) (b : Bool) (hg : g < 8) (hne : f ≠ g) :
    getFlagVal (setFlagVal x f b) g = getFlagVal x g := by
  rw [getFlagVal_eq_testBit, getFlagVal_eq_testBit x g]
  cases b
  · show (((x &&& (4294967295 ^^^ (1 <<< f))) % 256).testBit g).toNat = (x.testBit g).toNat
    rw [Nat.one_shiftLeft, show (256 : Nat) = 2 ^ 8 from rfl,
      show (4294967295 : Nat) = 2 ^ 32 - 1 from rfl,
      Nat.testBit_mod_two_pow, Nat.testBit_and, Nat.testBit_xor,
      Nat.testBit_two_pow_sub_one, Nat.testBit_two_pow_of_ne hne]
    simp [hg, show g < 32 by omega]
  · show (((x ||| (1 <<< f)) % 256).testBit g).toNat = (x.testBit g).toNat
    rw [Nat.one_shiftLeft, show (256 : Nat) = 2 ^ 8 from rfl,
      Nat.testBit_mod_two_pow, Nat.testBit_or, Nat.testBit_two_pow_of_ne hne]
    simp [hg]

/-- A flag write always leaves an 8-bit flags byte. -/
theorem setFlagVal_lt (x f : Nat) (b : Bool) : setFlagVal x f b < 256 := by
  cases b <;> exact Nat.mod_lt _ (by norm_num)

/-- `getFlag` after `setFlag` at the same position yields the written bit. -/
theorem getFlag_setFlag_self (t : cpu) (f : Nat) (b : Bool) (hf : f < 8) :
    getFlag (setFlag t f b) f = if b then 1 else 0 :=
  getFlagVal_setFlagVal_self t.flags f b hf

/-- `getFlag` after `setFlag` at another position is unchanged. -/
theorem getFlag_setFlag_ne (t : cpu) (f g : Nat) (b : Bool) (hg : g < 8) (hne : f ≠ g) :
    getFlag (setFlag t f b) g = getFlag t g :=
  getFlagVal_setFlagVal_ne t.flags f g b hg hne

/-- Overwriting the accumulator does not change any flag. -/
theorem getFlag_withA (t : cpu) (v g : Nat) : getFlag { t with A := v } g = getFlag t g := rfl

/-- `setFlag` does not change the accumulator. -/
theorem A_setFlag (t : cpu) (f : Nat) (b : Bool) : (setFlag t f b).A = t.A := rfl

/-- The flag forcing done by `pop` (clear bit 5, clear bit 3, set bit 1) as a
single mask-then-set on a flags byte. -/
theorem forceFlags_eq : ∀ x, x < 256 →
    setFlagVal (setFlagVal (setFlagVal x 5 false) 3 false) 1 true = (x &&& 215) ||| 2 := by
  decide

/-- Rotating a byte left (wrapping bit 7 to bit 0) and then right (wrapping
bit 0 to bit 7) restores the byte. -/
theorem rlc_rrc_id : ∀ a, a < 256 →
    ((a * 2 % 256 + a / 128) % 256 / 2 + 128 * ((a * 2 % 256 + a / 128) % 256 % 2)) % 256
      = a := by
  decide

/-- RLC leaves the accumulator rotated left by one bit. -/
theorem exec_rlc_A (s : cpu) : (exec s 0x07).A = (s.A * 2 % 256 + highBitsOf s.A 1) % 256 := rfl

/-- RRC leaves the accumulator rotated right by one bit. -/
theorem exec_rrc_A (s : cpu) : (exec s 0x0f).A = (s.A / 2 + 128 * lowBitsOf s.A 1) % 256 := rfl

/-- RAL shifts the accumulator left, dropping bit 7 into Carry only. -/
theorem exec_ral_A (s : cpu) : (exec s 0x17).A = s.A * 2 % 256 := rfl

/-- RAR shifts the accumulator right, dropping bit 0 into Carry only. -/
theorem exec_rar_A (s : cpu) : (exec s 0x1f).A = s.A / 2 := rfl

/-- C1: with interrupts enabled, `interrupt(0xC7)` followed by one `step()`
does NOT service the interrupt: `interrupt` itself clears
`interruptsEnabled`, so `step`'s service condition
`interruptsEnabled && interruptPending` is already false and the step
performs a normal fetch instead.  At the concrete failing input (PC = 0x1234,
memory all zero, so a NOP is fetched) the Program Counter becomes 0x1235
rather than 0, nothing is pushed (SP and the top of memory are untouched) and
the pending latch stays set; in the halted variant the step does nothing at
all, leaving `halted` set.  This contradicts the claimed push of the old PC,
PC = 0, cleared pending and cleared halted. -/
theorem C1_code_divergence :
    (interrupt { cpu0 with interruptsEnabled := true, PC := 4660 } 199).interruptsEnabled
      = false ∧
    (interrupt { cpu0 with interruptsEnabled := true, PC := 4660 } 199).interruptPending
      = true ∧
    (step (interrupt { cpu0 with interruptsEnabled := true, PC := 4660 } 199)).PC = 4661 ∧
    (step (interrupt { cpu0 with interruptsEnabled := true, PC := 4660 } 199)).SP = 0 ∧
    (step (interrupt { cpu0 with interruptsEnabled := true, PC := 4660 } 199)).interruptPending
      = true ∧
    (step (interrupt { cpu0 with interruptsEnabled := true, PC := 4660 } 199)).ram 65534 = 0 ∧
    (step (interrupt { cpu0 with interruptsEnabled := true, PC := 4660 } 199)).ram 65535 = 0 ∧
    step (interrupt { cpu0 with interruptsEnabled := true, halted := true, PC := 4660 } 199)
      = interrupt { cpu0 with interruptsEnabled := true, halted := true, PC := 4660 } 199 :=
  ⟨rfl, rfl, rfl, rfl, rfl, rfl, rfl, rfl⟩

/-- C2, counterexample to the claim as stated: loading the scenario file into
a zeroed buffer also writes the first record's checksum byte 0x05 to address
3 and the terminator record's checksum 0xFF to address 4 (the loader's
`byteNum - 4 <= byteCount` bound admits one byte beyond the data), so not
every byte outside addresses 0..2 is left unchanged. -/
theorem C2_counterexample :
    (loadIntelHexFile hexContentC2 (fun _ => 0)).2 3 = 5 ∧
    (loadIntelHexFile hexContentC2 (fun _ => 0)).2 4 = 255 := by decide

/-- C2, amended: loading `:0300000002030405\n:00000001FF\n` into a zeroed
64KB buffer returns success and leaves bytes 02 03 04 05 FF at addresses
0..4 — the claimed data bytes at 0..2 plus the two checksum bytes admitted
by the loader's off-by-one data bound — and every byte above address 4
unchanged. -/
theorem C2_hexload (a : Nat) (ha : 4 < a) :
    (loadIntelHexFile hexContentC2 (fun _ => 0)).1 = true ∧
    (loadIntelHexFile hexContentC2 (fun _ => 0)).2 0 = 2 ∧
    (loadIntelHexFile hexContentC2 (fun _ => 0)).2 1 = 3 ∧
    (loadIntelHexFile hexContentC2 (fun _ => 0)).2 2 = 4 ∧
    (loadIntelHexFile hexContentC2 (fun _ => 0)).2 3 = 5 ∧
    (loadIntelHexFile hexContentC2 (fun _ => 0)).2 4 = 255 ∧
    (loadIntelHexFile hexContentC2 (fun _ => 0)).2 a = 0 := by
  refine ⟨rfl, by decide, by decide, by decide, by decide, by decide, ?_⟩
  have hp : parseRecords hexContentC2 = [(0, [2, 3, 4, 5, 255])] := by decide
  show writeRecords (fun _ => 0) (parseRecords hexContentC2) a = 0
  rw [hp]
  simp only [writeRecords, List.foldl, writeRun, Function.update_apply]
  split_ifs <;> omega

/-- C2 witness: the amended statement at the concrete address 5. -/
theorem C2_hexload_witness :
    4 < 5 ∧
    ((loadIntelHexFile hexContentC2 (fun _ => 0)).1 = true ∧
      (loadIntelHexFile hexContentC2 (fun _ => 0)).2 0 = 2 ∧
      (loadIntelHexFile hexContentC2 (fun _ => 0)).2 1 = 3 ∧
      (loadIntelHexFile hexContentC2 (fun _ => 0)).2 2 = 4 ∧
      (loadIntelHexFile hexContentC2 (fun _ => 0)).2 3 = 5 ∧
      (loadIntelHexFile hexContentC2 (fun _ => 0)).2 4 = 255 ∧
      (loadIntelHexFile hexContentC2 (fun _ => 0)).2 5 = 0) :=
  ⟨by decide, C2_hexload 5 (by decide)⟩

/-- C5, counterexample to the claim as stated: starting from A = 0x80, RAL
then RAR does not restore the accumulator — RAL drops bit 7 into Carry and
RAR shifts in a zero, so A ends at 0. -/
theorem C5_counterexample :
    ({ cpu0 with A := 128 }).A = 128 ∧
    (exec (exec { cpu0 with A := 128 } 0x17) 0x1f).A = 0 := ⟨rfl, rfl⟩

/-- C5, amended: for every accumulator byte and flag state, RLC then RRC
restores the accumulator exactly; RAL then RAR instead leaves the
accumulator with bit 7 cleared (`A mod 128`), because RAL/RAR only shift out
of A into Carry and never wrap Carry back into A — so that round trip
restores A exactly when A < 128. -/
theorem C5_rotate_roundtrip (s : cpu) (hA : s.A < 256) :
    (exec (exec s 0x07) 0x0f).A = s.A ∧
    (exec (exec s 0x17) 0x1f).A = s.A % 128 := by
  constructor
  · rw [exec_rrc_A, exec_rlc_A]
    simp only [lowBitsOf, highBitsOf, show (8 : Nat) - 1 = 7 from rfl,
      show (2 : Nat) ^ 7 = 128 from rfl, show (2 : Nat) ^ 1 = 2 from rfl]
    exact rlc_rrc_id s.A hA
  · rw [exec_rar_A, exec_ral_A]
    omega

/-- C5 witness: the amended statement at the concrete accumulator 0xA5. -/
theorem C5_rotate_roundtrip_witness :
    ({ cpu0 with A := 165 }).A < 256 ∧
    ((exec (exec { cpu0 with A := 165 } 0x07) 0x0f).A = ({ cpu0 with A := 165 }).A ∧
      (exec (exec { cpu0 with A := 165 } 0x17) 0x1f).A = ({ cpu0 with A := 165 }).A % 128) :=
  ⟨by decide, C5_rotate_roundtrip { cpu0 with A := 165 } (by decide)⟩

/-- C9: after executing the HLT opcode, as long as no enabled interrupt is
pending, any number of `step()` calls leaves the entire processor state
(registers, flags, memory, Program Counter) unchanged: every such step is
the identity on the halted state. -/
theorem C9_halted_fixpoint (s : cpu)
    (h2 : s.interruptsEnabled = false ∨ s.interruptPending = false) (n : Nat) :
    step^[n] (exec s 0x76) = exec s 0x76 := by
  have hs : step (exec s 0x76) = exec s 0x76 := by
    show step { s with halted := true } = { s with halted := true }
    unfold step
    rcases h2 with h | h <;> simp [h]
  exact Function.iterate_fixed hs n

/-- C9 witness: a concrete processor that executed HLT, stepped five times. -/
theorem C9_halted_fixpoint_witness :
    (cpu0.interruptsEnabled = false ∨ cpu0.interruptPending = false) ∧
    step^[5] (exec cpu0 0x76) = exec cpu0 0x76 :=
  ⟨Or.inl rfl, C9_halted_fixpoint cpu0 (Or.inl rfl) 5⟩

/-- C10: opcode 0xCB is matched by no case of the dispatch, so executing it
changes nothing, and a (running, no pending enabled interrupt) step that
fetches 0xCB only advances the Program Counter by one. -/
theorem C10_undocumented_cb (s : cpu) (h1 : s.halted = false)
    (h2 : s.interruptsEnabled = false ∨ s.interruptPending = false)
    (h3 : s.ram s.PC = 0xCB) :
    exec s 0xCB = s ∧ step s = { s with PC := (s.PC + 1) % 65536 } := by
  constructor
  · rfl
  · unfold step
    rcases h2 with h | h <;>
      · simp only [h, h1, Bool.false_and, Bool.and_false, Bool.not_false, if_true,
          Bool.false_eq_true, if_false, get8, rd8, h3]
        rfl

/-- C3, counterexample to the claim as stated: with the incoming Carry set,
`add(0xFF, withCarry = true)` has true sum `A + 0xFF + 1 > 255`, so the claim
demands Carry = 1 — but the code folds the carry-in into the 8-bit temporary
`added`, which wraps to 0, and the Carry flag ends cleared. -/
theorem C3_counterexample :
    getFlag { cpu0 with A := 0, flags := 1 } carry = 1 ∧
    255 < ({ cpu0 with A := 0, flags := 1 }).A + 255 + 1 ∧
    getFlag (add { cpu0 with A := 0, flags := 1 } 255 true) carry = 0 := by decide

/-- C3, amended (see `addSpec`): `add` computes the new accumulator, Carry,
Auxiliary Carry, Sign, Zero and Parity as claimed once "operand plus
carry-in" is read as the 8-bit temporary `added = (operand + carry-in) mod
256`: Carry is set exactly when `A + added > 255` (not when the unwrapped
sum exceeds 255) and Auxiliary Carry compares the low nibbles of `A` and
`added` (not of the raw operand). -/
theorem C3_add_flags (s : cpu) (r8 : Nat) (withCarry : Bool)
    (hA : s.A < 256) (hr : r8 < 256) : addSpec s r8 withCarry := by
  unfold addSpec add updateFlags updateAuxCarryFlag
  simp only [A_setFlag]
  have hadded : (if withCarry && (getFlag s carry != 0) then (r8 + 1) % 256 else r8)
      = (r8 + (if withCarry && (getFlag s carry != 0) then 1 else 0)) % 256 := by
    cases withCarry && (getFlag s carry != 0) <;> simp <;> omega
  have hnewA :
      (s.A + (r8 + (if withCarry && (getFlag s carry != 0) then 1 else 0)) % 256) % 256
        = (s.A + r8 + (if withCarry && (getFlag s carry != 0) then 1 else 0)) % 256 := by
    omega
  refine ⟨?_, ?_, ?_, ?_, ?_, ?_⟩
  · simp only [hadded, hnewA]
  · rw [getFlag_setFlag_ne _ parity carry _ (by decide) (by decide),
      getFlag_setFlag_ne _ zero carry _ (by decide) (by decide),
      getFlag_setFlag_ne _ sign carry _ (by decide) (by decide),
      getFlag_withA,
      getFlag_setFlag_ne _ auxCarry carry _ (by decide) (by decide),
      getFlag_setFlag_self _ carry _ (by decide)]
    simp only [hadded, decide_eq_true_eq]
    split_ifs <;> omega
  · rw [getFlag_setFlag_ne _ parity auxCarry _ (by decide) (by decide),
      getFlag_setFlag_ne _ zero auxCarry _ (by decide) (by decide),
      getFlag_setFlag_ne _ sign auxCarry _ (by decide) (by decide),
      getFlag_withA,
      getFlag_setFlag_self _ auxCarry _ (by decide)]
    simp only [hadded, decide_eq_true_eq, lowBitsOf, show (2 : Nat) ^ 4 = 16 from rfl]
    split_ifs <;> omega
  · rw [getFlag_setFlag_ne _ parity sign _ (by decide) (by decide),
      getFlag_setFlag_ne _ zero sign _ (by decide) (by decide),
      getFlag_setFlag_self _ sign _ (by decide)]
    simp only [hadded, hnewA, decide_eq_true_eq]
  · rw [getFlag_setFlag_ne _ parity zero _ (by decide) (by decide),
      getFlag_setFlag_self _ zero _ (by decide)]
    simp only [hadded, hnewA, decide_eq_true_eq]
  · rw [getFlag_setFlag_self _ parity _ (by decide)]
    simp only [hadded, hnewA, decide_eq_true_eq]

/-- C3 witness: the amended statement at A = 200, operand = 100, with carry
in. -/
theorem C3_add_flags_witness :
    ({ cpu0 with A := 200, flags := 1 }).A < 256 ∧ (100 : Nat) < 256 ∧
    addSpec { cpu0 with A := 200, flags := 1 } 100 true :=
  ⟨by decide, by decide, C3_add_flags { cpu0 with A := 200, flags := 1 } 100 true
    (by decide) (by decide)⟩

/-- C4, counterexample to the claim as stated: with the incoming Carry set,
`sub(0xFF, withBorrow = true)` subtracts a true amount of 256, which exceeds
A = 5, so the claim demands Carry = 1 — but the 8-bit temporary `added`
wraps to 0 and the Carry flag ends cleared. -/
theorem C4_counterexample :
    getFlag { cpu0 with A := 5, flags := 1 } carry = 1 ∧
    ({ cpu0 with A := 5, flags := 1 }).A < 255 + 1 ∧
    getFlag (sub { cpu0 with A := 5, flags := 1 } 255 true) carry = 0 := by decide

/-- C4, amended (see `subSpec`): `sub` computes the new accumulator modulo
256, sets Carry exactly when the 8-bit temporary
`added = (operand + borrow-in) mod 256` exceeds `A`, updates
Sign/Zero/Parity from the new accumulator and leaves Auxiliary Carry
untouched. -/
theorem C4_sub_flags (s : cpu) (r8 : Nat) (withBorrow : Bool)
    (hr : r8 < 256) : subSpec s r8 withBorrow := by
  unfold subSpec sub updateFlags
  simp only [A_setFlag]
  have hadded : (if withBorrow && (getFlag s carry != 0) then (r8 + 1) % 256 else r8)
      = (r8 + (if withBorrow && (getFlag s carry != 0) then 1 else 0)) % 256 := by
    cases withBorrow && (getFlag s carry != 0) <;> simp <;> omega
  refine ⟨?_, ?_, ?_, ?_, ?_, ?_⟩
  · simp only [hadded]
  · rw [getFlag_setFlag_ne _ parity carry _ (by decide) (by decide),
      getFlag_setFlag_ne _ zero carry _ (by decide) (by decide),
      getFlag_setFlag_ne _ sign carry _ (by decide) (by decide),
      getFlag_withA,
      getFlag_setFlag_self _ carry _ (by decide)]
    simp only [hadded, decide_eq_true_eq]
  · rw [getFlag_setFlag_ne _ parity auxCarry _ (by decide) (by decide),
      getFlag_setFlag_ne _ zero auxCarry _ (by decide) (by decide),
      getFlag_setFlag_ne _ sign auxCarry _ (by decide) (by decide),
      getFlag_withA,
      getFlag_setFlag_ne _ carry auxCarry _ (by decide) (by decide)]
  · rw [getFlag_setFlag_ne _ parity sign _ (by decide) (by decide),
      getFlag_setFlag_ne _ zero sign _ (by decide) (by decide),
      getFlag_setFlag_self _ sign _ (by decide)]
    simp only [hadded, decide_eq_true_eq]
  · rw [getFlag_setFlag_ne _ parity zero _ (by decide) (by decide),
      getFlag_setFlag_self _ zero _ (by decide)]
    simp only [hadded, decide_eq_true_eq]
  · rw [getFlag_setFlag_self _ parity _ (by decide)]
    simp only [hadded, decide_eq_true_eq]

/-- C4 witness: the amended statement at A = 16, operand = 32, with borrow
in. -/
theorem C4_sub_flags_witness :
    (32 : Nat) < 256 ∧ subSpec { cpu0 with A := 16, flags := 1 } 32 true :=
  ⟨by decide, C4_sub_flags { cpu0 with A := 16, flags := 1 } 32 true (by decide)⟩

/-- `pop` right after `push` reads back the pushed 16-bit value. -/
theorem rd16_push (s : cpu) (v : Nat) (hv : v < 65536) :
    rd16 (push s v) (push s v).SP = v := by
  show rd16 (push s v) ((s.SP + 65534) % 65536) = v
  unfold push wr16 wr8 rd16 rd8
  simp only [Function.update_apply]
  split_ifs <;> omega

/-- C6: `push` of a register pair followed by `pop` into the same pair
restores the pair exactly for BC, DE and HL; for PSW the accumulator half is
restored exactly and the flags half is restored with bits 1, 3, 5 forced to
1, 0, 0. -/
theorem C6_push_pop (s : cpu) (hB : s.B < 256) (hC : s.C < 256) (hD : s.D < 256)
    (hE : s.E < 256) (hH : s.H < 256) (hL : s.L < 256) (hA : s.A < 256)
    (hF : s.flags < 256) :
    BC (exec (exec s 0xc5) 0xc1) = BC s ∧
    DE (exec (exec s 0xd5) 0xd1) = DE s ∧
    HL (exec (exec s 0xe5) 0xe1) = HL s ∧
    (exec (exec s 0xf5) 0xf1).A = s.A ∧
    (exec (exec s 0xf5) 0xf1).flags = (s.flags &&& 215) ||| 2 := by
  refine ⟨?_, ?_, ?_, ?_, ?_⟩
  · show BC (popInto (push s (BC s)) setBC) = BC s
    unfold popInto
    rw [rd16_push _ _ (show BC s < 65536 by unfold BC; omega)]
    show 256 * (BC s / 256 % 256) + BC s % 256 = BC s
    unfold BC; omega
  · show DE (popInto (push s (DE s)) setDE) = DE s
    unfold popInto
    rw [rd16_push _ _ (show DE s < 65536 by unfold DE; omega)]
    show 256 * (DE s / 256 % 256) + DE s % 256 = DE s
    unfold DE; omega
  · show HL (popInto (push s (HL s)) setHL) = HL s
    unfold popInto
    rw [rd16_push _ _ (show HL s < 65536 by unfold HL; omega)]
    show 256 * (HL s / 256 % 256) + HL s % 256 = HL s
    unfold HL; omega
  · show (popInto (push s (PSW s)) setPSW).A = s.A
    unfold popInto
    rw [rd16_push _ _ (show PSW s < 65536 by unfold PSW; omega)]
    show PSW s / 256 % 256 = s.A
    unfold PSW; omega
  · show (popInto (push s (PSW s)) setPSW).flags = (s.flags &&& 215) ||| 2
    unfold popInto
    rw [rd16_push _ _ (show PSW s < 65536 by unfold PSW; omega)]
    show setFlagVal (setFlagVal (setFlagVal (PSW s % 256) 5 false) 3 false) 1 true
      = (s.flags &&& 215) ||| 2
    have hps : PSW s % 256 = s.flags := by unfold PSW; omega
    rw [hps]
    exact forceFlags_eq s.flags hF

/-- C6 witness: the statement at the concrete register file `cpuW6`. -/
theorem C6_push_pop_witness :
    cpuW6.B < 256 ∧ cpuW6.C < 256 ∧
    (BC (exec (exec cpuW6 0xc5) 0xc1) = BC cpuW6 ∧
      DE (exec (exec cpuW6 0xd5) 0xd1) = DE cpuW6 ∧
      HL (exec (exec cpuW6 0xe5) 0xe1) = HL cpuW6 ∧
      (exec (exec cpuW6 0xf5) 0xf1).A = cpuW6.A ∧
      (exec (exec cpuW6 0xf5) 0xf1).flags = (cpuW6.flags &&& 215) ||| 2) :=
  ⟨by decide, by decide,
    C6_push_pop cpuW6 (by decide) (by decide) (by decide) (by decide) (by decide)
      (by decide) (by decide) (by decide)⟩

/-- C7: every `pop` — whichever of BC, DE, HL, PSW it targets — forces flag
bits 1, 3, 5 of the real flags register to 1, 0, 0 as a side effect, so the
fixed-bit invariant holds after any pop. -/
theorem C7_pop_forces_flag_bits (s : cpu) (op : Nat)
    (hop : op ∈ [0xc1, 0xd1, 0xe1, 0xf1]) :
    getFlag (exec s op) 1 = 1 ∧ getFlag (exec s op) 3 = 0 ∧ getFlag (exec s op) 5 = 0 := by
  have key : ∀ (t : cpu) (w : cpu → Nat → cpu),
      getFlag (popInto t w) 1 = 1 ∧ getFlag (popInto t w) 3 = 0 ∧
        getFlag (popInto t w) 5 = 0 := by
    intro t w
    unfold popInto
    refine ⟨?_, ?_, ?_⟩
    · rw [getFlag_setFlag_self _ 1 _ (by decide)]
      rfl
    · rw [getFlag_setFlag_ne _ 1 3 _ (by decide) (by decide),
        getFlag_setFlag_self _ 3 _ (by decide)]
      rfl
    · rw [getFlag_setFlag_ne _ 1 5 _ (by decide) (by decide),
        getFlag_setFlag_ne _ 3 5 _ (by decide) (by decide),
        getFlag_setFlag_self _ 5 _ (by decide)]
      rfl
  simp only [List.mem_cons, List.not_mem_nil, or_false] at hop
  rcases hop with rfl | rfl | rfl | rfl
  · exact key s setBC
  · exact key s setDE
  · exact key s setHL
  · exact key s setPSW

/-- C7 witness: the statement at POP DE on a dirtied flags byte. -/
theorem C7_pop_forces_flag_bits_witness :
    ((0xd1 : Nat) ∈ [0xc1, 0xd1, 0xe1, 0xf1]) ∧
    (getFlag (exec { cpu0 with flags := 255 } 0xd1) 1 = 1 ∧
      getFlag (exec { cpu0 with flags := 255 } 0xd1) 3 = 0 ∧
      getFlag (exec { cpu0 with flags := 255 } 0xd1) 5 = 0) :=
  ⟨by decide, C7_pop_forces_flag_bits { cpu0 with flags := 255 } 0xd1 (by decide)⟩

/-- C8: a conditional jump or call whose condition is not taken consumes its
two trailing operand bytes — the Program Counter advances past them — and
changes nothing else: the resulting state differs from the initial one only
in the Program Counter. -/
theorem C8_condjump_frame (s : cpu) (op : Nat) (hop : op ∈ condJumpCallOps)
    (hnt : condOf s op = false) :
    exec s op = { s with PC := (s.PC + 2) % 65536 } := by
  have hjmp : ∀ b : Bool, b = false → jmp s b = { s with PC := (s.PC + 2) % 65536 } := by
    intro b hb; subst hb; rfl
  have hcall : ∀ b : Bool, b = false → call s b = { s with PC := (s.PC + 2) % 65536 } := by
    intro b hb; subst hb; rfl
  simp only [condJumpCallOps, List.mem_cons, List.not_mem_nil, or_false] at hop
  rcases hop with rfl | rfl | rfl | rfl | rfl | rfl | rfl | rfl | rfl | rfl | rfl | rfl |
    rfl | rfl | rfl | rfl
  · exact hjmp _ hnt
  · exact hjmp _ hnt
  · exact hjmp _ hnt
  · exact hjmp _ hnt
  · exact hjmp _ hnt
  · exact hjmp _ hnt
  · exact hjmp _ hnt
  · exact hjmp _ hnt
  · exact hcall _ hnt
  · exact hcall _ hnt
  · exact hcall _ hnt
  · exact hcall _ hnt
  · exact hcall _ hnt
  · exact hcall _ hnt
  · exact hcall _ hnt
  · exact hcall _ hnt

/-- C8 witness: JNZ with the Zero flag set (condition not taken). -/
theorem C8_condjump_frame_witness :
    ((0xc2 : Nat) ∈ condJumpCallOps) ∧ condOf { cpu0 with flags := 64 } 0xc2 = false ∧
    exec { cpu0 with flags := 64 } 0xc2
      = { { cpu0 with flags := 64 } with
          PC := (({ cpu0 with flags := 64 }).PC + 2) % 65536 } :=
  ⟨by decide, rfl, C8_condjump_frame { cpu0 with flags := 64 } 0xc2 (by decide) rfl⟩

/-- C10 witness: a concrete state whose memory holds 0xCB everywhere. -/
theorem C10_undocumented_cb_witness :
    ({ cpu0 with ram := fun _ => 203 }).halted = false ∧
    (({ cpu0 with ram := fun _ => 203 }).interruptsEnabled = false ∨
      ({ cpu0 with ram := fun _ => 203 }).interruptPending = false) ∧
    ({ cpu0 with ram := fun _ => 203 }).ram ({ cpu0 with ram := fun _ => 203 }).PC = 203 ∧
    (exec { cpu0 with ram := fun _ => 203 } 0xCB = { cpu0 with ram := fun _ => 203 } ∧
      step { cpu0 with ram := fun _ => 203 }
        = { { cpu0 with ram := fun _ => 203 } with
            PC := (({ cpu0 with ram := fun _ => 203 }).PC + 1) % 65536 }) :=
  ⟨rfl, Or.inl rfl, rfl,
    C10_undocumented_cb { cpu0 with ram := fun _ => 203 } rfl (Or.inl rfl) rfl⟩

end Intel8080
